import Mathlib

/-!
Verification of the ProductBoard client engine: a shallow embedding of the
error taxonomy (src/client/errors.ts), the request/retry/pagination
orchestration (the api-client file), the token-bucket rate limiter
(src/utils/rate-limiter.ts) and the LRU cache's key generation, lookup,
invalidation and wrap logic (src/utils/cache.ts), together with theorems
settling the specified properties.

Modelling conventions: JS numbers that hold integral millisecond times and
token counts become Int; absent/undefined values become Option; promises and
awaits disappear (the code under verification is sequential between its
suspension points); the HTTP layer is an environment function supplying the
outcome of each attempt.
-/

/-! ### Error taxonomy (src/client/errors.ts) -/

/-- Which error class a `ProductBoardError` instance was constructed as.
`base` is the plain `ProductBoardError` class (used for 404, for unknown
statuses and for the no-response NETWORK_ERROR path); the other tags are the
subclasses.  The `NotFoundError` subclass exists in the source but is never
constructed by `parseApiError`, which returns a plain `ProductBoardError`
with code NOT_FOUND for 404, so it needs no tag. -/
inductive ErrKind where
  | base
  | validation
  | authentication
  | authorization
  | rateLimit
  | server
  deriving DecidableEq, Repr

/-- The `ProductBoardError` class hierarchy flattened to one structure: `kind`
records the dynamic class (for the `instanceof` tests), and `retryAfter` is
the `RateLimitError.retryAfter` field (present only on that subclass; its
constructor default is 60).  The `details` payload and the `name` string are
not modelled: no claim under verification mentions them. -/
structure ProductBoardError where
  kind : ErrKind
  message : String
  code : String
  statusCode : Int
  retryAfter : Int := 60
  deriving DecidableEq, Repr

/-- `new ValidationError(message, details)`: code VALIDATION_ERROR, status 400. -/
def validationError (message : String) : ProductBoardError :=
  ⟨.validation, message, "VALIDATION_ERROR", 400, 60⟩

/-- `new AuthenticationError(message)`: code AUTHENTICATION_ERROR, status 401. -/
def authenticationError (message : String) : ProductBoardError :=
  ⟨.authentication, message, "AUTHENTICATION_ERROR", 401, 60⟩

/-- `new AuthorizationError(message)`: code AUTHORIZATION_ERROR, status 403. -/
def authorizationError (message : String) : ProductBoardError :=
  ⟨.authorization, message, "AUTHORIZATION_ERROR", 403, 60⟩

/-- `new RateLimitError(retryAfter)`: code RATE_LIMIT_EXCEEDED, status 429,
message built from the retryAfter value. -/
def rateLimitError (retryAfter : Int) : ProductBoardError :=
  ⟨.rateLimit,
    "Rate limit exceeded. Retry after " ++ toString retryAfter ++ " seconds",
    "RATE_LIMIT_EXCEEDED", 429, retryAfter⟩

/-- `new ServerError(message)`: code SERVER_ERROR, status 500 (also used for
502/503/504 responses, whose own status is not preserved). -/
def serverError (message : String) : ProductBoardError :=
  ⟨.server, message, "SERVER_ERROR", 500, 60⟩

/-- `isRetryableError` from errors.ts: true for `RateLimitError` instances,
for `ServerError` instances, and for any other `ProductBoardError` whose
`statusCode >= 500`.  (The final `return false` of the source handles
non-ProductBoardError throwables, which the embedding does not carry: every
error in the modelled request path is a `ProductBoardError`.) -/
def isRetryableError (e : ProductBoardError) : Bool :=
  if e.kind = .rateLimit then true
  else if e.kind = .server then true
  else decide (e.statusCode ≥ 500)

/-- `getRetryDelay` from errors.ts: `retryAfter * 1000` ms for rate-limit
errors, otherwise exponential backoff `min(1000 * 2^attempt, 30000)` ms. -/
def getRetryDelay (e : ProductBoardError) (attempt : Nat) : Int :=
  if e.kind = .rateLimit then e.retryAfter * 1000
  else min (1000 * 2 ^ attempt) 30000

/-- `parseApiError` from errors.ts.  The upstream response body is abstracted
to the message string its `extractErrorMessage` helper produces plus the
optional `code` field read in the default branch; the Retry-After header is
abstracted to its parsed integer value (absent header gives the default 60). -/
def parseApiError (statusCode : Int) (message : String)
    (bodyCode : Option String) (retryAfterHeader : Option Int) :
    ProductBoardError :=
  if statusCode = 400 then validationError message
  else if statusCode = 401 then authenticationError message
  else if statusCode = 403 then authorizationError message
  else if statusCode = 404 then ⟨.base, message, "NOT_FOUND", 404, 60⟩
  else if statusCode = 429 then rateLimitError (retryAfterHeader.getD 60)
  else if statusCode = 500 ∨ statusCode = 502 ∨ statusCode = 503 ∨ statusCode = 504 then
    serverError message
  else ⟨.base, message, bodyCode.getD "UNKNOWN_ERROR", statusCode, 60⟩

/-! ### Request orchestration (api-client: setupInterceptors, request) -/

/-- Outcome of one raw HTTP attempt as seen by the axios response
interceptor: a success value, an error response carrying a status plus the
abstracted body fields, or no response at all (network failure, or the 30s
wall-clock timeout that axios surfaces as an error without a `response`). -/
inductive HttpOutcome (T : Type) where
  | success (v : T)
  | httpError (status : Int) (message : String)
      (bodyCode : Option String) (retryAfterHeader : Option Int)
  | noResponse (message : Option String)

/-- The response interceptor installed by `setupInterceptors`: an error with
a response is classified through `parseApiError`; an error without any
response becomes `new ProductBoardError(error.message || 'Network error',
'NETWORK_ERROR', 0)`. -/
def interceptResponse {T : Type} : HttpOutcome T → Except ProductBoardError T
  | .success v => .ok v
  | .httpError status message bodyCode retryAfterHeader =>
      .error (parseApiError status message bodyCode retryAfterHeader)
  | .noResponse message =>
      .error ⟨.base, message.getD "Network error", "NETWORK_ERROR", 0, 60⟩

/-- `MAX_RETRIES` from the api-client. -/
def MAX_RETRIES : Nat := 3

/-- Observable trace of one `request(config, retryCount)` call: the final
result, the number of HTTP attempts issued, and the backoff delays slept (in
order) between attempts. -/
structure RequestTrace (T : Type) where
  result : Except ProductBoardError T
  attempts : Nat
  delays : List Int

/-- `request` from the api-client: issue the HTTP call (whose outcome the
environment `env` supplies per retryCount), and on failure, if the
classified error is retryable and `retryCount < MAX_RETRIES`, sleep
`getRetryDelay(error, retryCount)` and recurse with `retryCount + 1`;
otherwise propagate the error.  The rate-limiter acquisition that precedes
each attempt does not affect the trace fields recorded here. -/
def request {T : Type} (env : Nat → HttpOutcome T) (retryCount : Nat) :
    RequestTrace T :=
  match interceptResponse (env retryCount) with
  | .ok v => ⟨.ok v, 1, []⟩
  | .error e =>
    if h : isRetryableError e = true ∧ retryCount < MAX_RETRIES then
      let t := request env (retryCount + 1)
      ⟨t.result, t.attempts + 1, getRetryDelay e retryCount :: t.delays⟩
    else
      ⟨.error e, 1, []⟩
  termination_by MAX_RETRIES + 1 - retryCount
  decreasing_by
    have := h.2
    simp [MAX_RETRIES] at *
    omega

/-- Environment in which every attempt fails without a response (a network
failure or the 30-second wall-clock timeout). -/
def envTimeout : Nat → HttpOutcome Unit := fun _ => .noResponse (some "timeout of 30000ms exceeded")

/-- Environment in which every attempt fails with HTTP 500. -/
def envAll500 : Nat → HttpOutcome Unit := fun _ => .httpError 500 "boom" none none

/-- Environment in which every attempt fails with HTTP 404. -/
def env404 : Nat → HttpOutcome Unit := fun _ => .httpError 404 "Feature not found" none none

/-- Environment whose first attempt fails with HTTP 429 (Retry-After 5s) and
whose later attempts succeed. -/
def env429 : Nat → HttpOutcome Unit := fun n =>
  if n = 0 then .httpError 429 "" none (some 5) else .success ()

/-! ### Pagination (api-client: paginate) -/

/-- One page of a `PaginatedResponse`: the `data` array plus the `pageCursor`
query parameter of the `links.next` URL (`none` when `links.next` is absent
or carries no pageCursor parameter). -/
structure PageResponse (T : Type) where
  data : List T
  next : Option String

/-- The cursor-extraction tail `... .get('pageCursor') || undefined` of
`paginate`: a missing or empty-string (falsy) parameter becomes undefined. -/
def extractCursor (raw : Option String) : Option String :=
  match raw with
  | some s => if s = "" then none else some s
  | none => none

/-- JS truthiness of the optional `maxItems` argument (`maxItems && ...` in
the source): undefined and 0 are falsy. -/
def maxItemsTruthy : Option Nat → Bool
  | none => false
  | some m => decide (m ≠ 0)

/-- The do-while loop of `paginate`, with explicit accumulator, cursor,
request counter and fuel (the source loop has no fuel; result `none` marks
fuel exhaustion, i.e. the loop still running after that many iterations).
Each iteration issues one request for the current cursor, appends the page's
`data` to `results`, returns `results.slice(0, maxItems)` as soon as
`maxItems` is truthy and `results.length >= maxItems`, and otherwise
continues while an extracted next cursor exists. -/
def paginateGo {T : Type} (env : Option String → PageResponse T)
    (maxItems : Option Nat) :
    Nat → List T → Option String → Nat → Option (List T × Nat)
  | 0, _, _, _ => none
  | fuel + 1, results, cursor, requests =>
    let resp := env cursor
    let results := results ++ resp.data
    if maxItemsTruthy maxItems ∧ results.length ≥ maxItems.getD 0 then
      some (results.take (maxItems.getD 0), requests + 1)
    else
      match extractCursor resp.next with
      | some c => paginateGo env maxItems fuel results (some c) (requests + 1)
      | none => some (results, requests + 1)

/-- `paginate(endpoint, params, maxItems?)`: run the loop from an empty
accumulator and an undefined cursor, returning the accumulated items and the
number of requests issued (`none` if `fuel` iterations did not finish). -/
def paginate {T : Type} (env : Option String → PageResponse T)
    (maxItems : Option Nat) (fuel : Nat) : Option (List T × Nat) :=
  paginateGo env maxItems fuel [] none 0

/-- Fake endpoint serving three pages of two items linked by next cursors:
the specified pagination scenario. -/
def pages3 : Option String → PageResponse Nat
  | none => ⟨[1, 2], some "c2"⟩
  | some "c2" => ⟨[3, 4], some "c3"⟩
  | some "c3" => ⟨[5, 6], none⟩
  | some _ => ⟨[], none⟩

/-- Endpoint whose every response carries a next cursor but no items. -/
def pagesLoop : Option String → PageResponse Nat := fun _ => ⟨[], some "c"⟩

/-- Endpoint whose every response carries a next cursor and one item. -/
def pagesOnes : Option String → PageResponse Nat := fun _ => ⟨[7], some "k"⟩

/-! ### Token-bucket rate limiter (src/utils/rate-limiter.ts) -/

/-- `RateLimiterOptions`: maximum tokens, tokens added per interval, and the
interval length in milliseconds. -/
structure RateLimiterOptions where
  maxTokens : Int
  refillRate : Int
  refillInterval : Int

/-- `DEFAULT_OPTIONS` of the rate limiter: 100 tokens refilled completely
every minute. -/
def defaultRLOptions : RateLimiterOptions := ⟨100, 100, 60 * 1000⟩

/-- Mutable state of a `RateLimiter`: current `tokens` and `lastRefill`
timestamp (ms). -/
structure RateLimiterState where
  tokens : Int
  lastRefill : Int
  deriving DecidableEq, Repr

/-- Constructor state: the bucket starts full, with `lastRefill = Date.now()`. -/
def initRLState (o : RateLimiterOptions) (now : Int) : RateLimiterState :=
  ⟨o.maxTokens, now⟩

/-- `refill()`: compute whole elapsed intervals since `lastRefill`
(`Math.floor` is `Int.fdiv`, JS `%` on the nonnegative elapsed value is
`Int.emod`); when at least one interval elapsed, add `intervals ×
refillRate` tokens capped at `maxTokens` and move `lastRefill` to
`now - elapsed % refillInterval`. -/
def refill (o : RateLimiterOptions) (s : RateLimiterState) (now : Int) :
    RateLimiterState :=
  let elapsed := now - s.lastRefill
  let intervals := Int.fdiv elapsed o.refillInterval
  if intervals > 0 then
    ⟨min o.maxTokens (s.tokens + intervals * o.refillRate),
      now - Int.emod elapsed o.refillInterval⟩
  else s

/-- `tryAcquire()`: refill, then take a token iff one is available. -/
def tryAcquire (o : RateLimiterOptions) (s : RateLimiterState) (now : Int) :
    Bool × RateLimiterState :=
  let s := refill o s now
  if s.tokens > 0 then (true, ⟨s.tokens - 1, s.lastRefill⟩)
  else (false, s)

/-- `acquire()`: the suspend-and-retry loop, driven by the list of instants
at which its successive `tryAcquire` calls run (the list bounds how long the
model follows the loop); after a failed attempt the loop reads
`getWaitTime()`, whose own `refill` at the same instant is applied before
sleeping. -/
def acquireSteps (o : RateLimiterOptions) (s : RateLimiterState) :
    List Int → RateLimiterState
  | [] => s
  | t :: ts =>
    match tryAcquire o s t with
    | (true, s') => s'
    | (false, s') => acquireSteps o (refill o s' t) ts

/-- One public operation of the `RateLimiter`, tagged with the instant at
which it runs.  `getWaitTime`, `getTokens` and `isRateLimited` mutate the
state only through their initial `refill()`; `reset()` restores a full
bucket and stamps `lastRefill = Date.now()`. -/
inductive RLOp where
  | tryAcq (now : Int)
  | acq (times : List Int)
  | waitTime (now : Int)
  | tokensOp (now : Int)
  | limited (now : Int)
  | resetOp (now : Int)

/-- State transition of each public operation. -/
def applyRLOp (o : RateLimiterOptions) (s : RateLimiterState) : RLOp → RateLimiterState
  | .tryAcq now => (tryAcquire o s now).2
  | .acq times => acquireSteps o s times
  | .waitTime now => refill o s now
  | .tokensOp now => refill o s now
  | .limited now => refill o s now
  | .resetOp now => ⟨o.maxTokens, now⟩

/-- The specified state invariant: `0 ≤ tokens ≤ maxTokens`. -/
def RLInv (o : RateLimiterOptions) (s : RateLimiterState) : Prop :=
  0 ≤ s.tokens ∧ s.tokens ≤ o.maxTokens

/-! ### Cache (src/utils/cache.ts)

The backing `lru-cache` store is modelled as an association list of live
entries; its TTL expiry and LRU eviction only make entries absent and play
no part in the claims verified here (key determinism, deletion, prefix
invalidation, and the undefined-value branch of `wrap`), so they are not
modelled.  A stored value is `Option JVal`: `none` models a cached
JavaScript `undefined`. -/

/-- JSON-serializable parameter values, as far as the cached tool parameters
need them. -/
inductive JVal where
  | jnum (n : Int)
  | jstr (s : String)
  | jbool (b : Bool)
  deriving DecidableEq, Repr

/-- `JSON.stringify` of one value (string escaping beyond quoting is not
reproduced; the claims need only that serialization is a function of the
value). -/
def jvalToString : JVal → String
  | .jnum n => toString n
  | .jstr s => "\"" ++ s ++ "\""
  | .jbool b => if b then "true" else "false"

/-- `JSON.stringify` of the sorted, null-stripped parameter object that
`generateKey` builds: its keys in order, each serialized as
`"key":value`, joined with commas inside braces. -/
def stringifyPairs (ps : List (String × JVal)) : String :=
  "\x7b" ++ String.intercalate ","
    (ps.map fun p => "\"" ++ p.1 ++ "\":" ++ jvalToString p.2) ++ "\x7d"

/-- JS object property access `params[key]` on a parameter bag whose entries
are `undefined`/`null` (`none`) or a value (`some v`): the result is
`none` when the key is absent, `some none` when bound to undefined/null,
`some (some v)` when bound to `v`. -/
def lookupParam (params : List (String × Option JVal)) (k : String) :
    Option (Option JVal) :=
  (params.find? (fun p => p.1 == k)).map (fun p => p.2)

/-- The body of `ApiCache.generateKey`: `Object.keys(params).sort()`
(JS default sort = lexicographic order, modelled by insertion sort on
String ≤), then a reduce that copies each key's value into the accumulator
object only when it is neither undefined nor null. -/
def sortedEntries (params : List (String × Option JVal)) : List (String × JVal) :=
  let keys := params.map Prod.fst
  let sortedKeys := keys.insertionSort (· ≤ ·)
  sortedKeys.foldl (fun acc k =>
    match lookupParam params k with
    | some (some v) => acc ++ [(k, v)]
    | _ => acc) []

/-- `ApiCache.generateKey(tool, params)`:
`tool + ":" + JSON.stringify(sortedParams)`. -/
def generateKey (tool : String) (params : List (String × Option JVal)) : String :=
  tool ++ ":" ++ stringifyPairs (sortedEntries params)

/-- The non-null bindings of a parameter bag, in their original order: the
semantic content `generateKey` must be a function of. -/
def keepSome (params : List (String × Option JVal)) : List (String × JVal) :=
  params.filterMap (fun p => p.2.map (fun v => (p.1, v)))

/-- A cache store: live entries as an association list. -/
abbrev CacheStore : Type := List (String × Option JVal)

/-- `get(key)`: `undefined` (`none`) when the key is absent or its stored
value is a cached `undefined`. -/
def cacheGet (c : CacheStore) (k : String) : Option JVal :=
  ((c.find? (fun e => e.1 == k)).map (fun e => e.2)).bind id

/-- `set(key, value)`: overwrite any entry for `key`. -/
def cacheSet (c : CacheStore) (k : String) (v : Option JVal) : CacheStore :=
  (k, v) :: c.filter (fun e => !(e.1 == k))

/-- `delete(key)`. -/
def cacheDelete (c : CacheStore) (k : String) : CacheStore :=
  c.filter (fun e => !(e.1 == k))

/-- JS `key.startsWith(pat)`. -/
def keyStartsWith (s pat : String) : Bool :=
  pat.data.isPrefixOf s.data

/-- `invalidatePattern(pattern)`: delete every entry whose key starts with
`pattern`; return the surviving store and the count removed. -/
def invalidatePattern (c : CacheStore) (pat : String) : CacheStore × Nat :=
  (c.filter (fun e => !(keyStartsWith e.1 pat)),
    (c.filter (fun e => keyStartsWith e.1 pat)).length)

/-- Result of one `wrap(key, fn)` call: the returned value, the store
afterwards, and whether `fn` was invoked. -/
structure WrapResult where
  value : Option JVal
  state : CacheStore
  computed : Bool

/-- `wrap(key, fn)`: serve the cached value when `get(key) !== undefined`;
otherwise invoke `fn` (whose resolved value is `compute`), store its result
and return it. -/
def cacheWrap (c : CacheStore) (k : String) (compute : Option JVal) : WrapResult :=
  match cacheGet c k with
  | some v => ⟨some v, c, false⟩
  | none => ⟨compute, cacheSet c k compute, true⟩

/-- The cache effect of `updateFeature(id, ...)` after its PATCH succeeds:
delete the feature's own `pb_feature_get` entry, then invalidate the
`pb_feature_list:` and `pb_feature_search:` families. -/
def updateFeatureInvalidation (c : CacheStore) (id : String) : CacheStore :=
  let c1 := cacheDelete c (generateKey "pb_feature_get" [("id", some (.jstr id))])
  let c2 := (invalidatePattern c1 "pb_feature_list:").1
  (invalidatePattern c2 "pb_feature_search:").1

/-- The per-key projection the `generateKey` reduce performs: the binding
`(k, v)` when `params[k]` is a non-null `v`, nothing otherwise. -/
def keyBinding (params : List (String × Option JVal)) (k : String) :
    Option (String × JVal) :=
  match lookupParam params k with
  | some (some v) => some (k, v)
  | _ => none

/-- Key order on built bindings. -/
def keyLt (a b : String × JVal) : Prop := a.1 < b.1

instance keyLtAntisymm : IsAntisymm (String × JVal) keyLt :=
  ⟨fun _ _ h h' => absurd h' (lt_asymm h)⟩

/-! ### Client-side feature search (api-client: searchFeatures) -/

/-- A ProductBoard feature, restricted to the fields `searchFeatures` reads:
`name` is required by the Feature type, `description` optional. -/
structure Feature where
  id : String
  name : String
  description : Option String
  deriving DecidableEq, Repr

/-- JS `String.prototype.toLowerCase()`, modelled per character
(`String.map Char.toLower`, written through the character list). -/
def toLowerStr (s : String) : String := String.mk (s.data.map Char.toLower)

/-- JS `haystack.includes(needle)`: the needle occurs contiguously in the
haystack (every suffix is tested for the needle as prefix). -/
def containsSub (needle : List Char) : List Char → Bool
  | [] => needle.isEmpty
  | c :: rest => needle.isPrefixOf (c :: rest) || containsSub needle rest

/-- `strContains s sub`: JS `s.includes(sub)`. -/
def strContains (s sub : String) : Bool := containsSub sub.data s.data

/-- The filter predicate of `searchFeatures`:
`f.name?.toLowerCase().includes(queryLower) ||
 f.description?.toLowerCase().includes(queryLower)`
(an absent description is falsy). -/
def featureMatches (queryLower : String) (f : Feature) : Bool :=
  strContains (toLowerStr f.name) queryLower ||
    (match f.description with
     | some d => strContains (toLowerStr d) queryLower
     | none => false)

/-- The pure tail of `searchFeatures(query, limit)` applied to the listed
features: lower-case the query, filter by `featureMatches`, truncate with
`.slice(0, limit)`. -/
def searchFeaturesOn (features : List Feature) (query : String) (limit : Nat) :
    List Feature :=
  let queryLower := toLowerStr query
  (features.filter (featureMatches queryLower)).take limit

/-- `searchFeatures(query, limit)` end to end: list features through
`paginate` with `listFeatures({ limit: 500 })` (so `maxItems = 500`), then
filter and truncate client-side.  The surrounding `cache.wrap` is the
orthogonal mechanism verified separately. -/
def searchFeatures (env : Option String → PageResponse Feature)
    (query : String) (limit : Nat) (fuel : Nat) : Option (List Feature) :=
  (paginate env (some 500) fuel).map (fun r => searchFeaturesOn r.1 query limit)

/-- "Dark Mode", description without the query. -/
def darkFeature : Feature := ⟨"1", "Dark Mode", some "toggle the theme"⟩

/-- "Light Mode", description without the query. -/
def lightFeature : Feature := ⟨"2", "Light Mode", some "bright theme"⟩

/-- "Light Mode" whose description does contain "dark". -/
def lightFeatureDarkDesc : Feature := ⟨"2", "Light Mode", some "very dark theme"⟩

/-- One-page feature endpoint used by the search witness. -/
def envFeatDemo : Option String → PageResponse Feature := fun _ => ⟨[darkFeature], none⟩

/-! ## Theorems -/

/-- Claim C1 (counterexample): an HTTP call failing without any response is
classified with statusCode 0 and is NOT retryable — `request` propagates it
after a single attempt even though retryCount 0 < 3, with no delay. -/
theorem c1_counterexample :
    isRetryableError ⟨.base, "timeout of 30000ms exceeded", "NETWORK_ERROR", 0, 60⟩ = false ∧
    request envTimeout 0 =
      ⟨.error ⟨.base, "timeout of 30000ms exceeded", "NETWORK_ERROR", 0, 60⟩, 1, []⟩ := by
  constructor
  · rfl
  · rw [request]
    simp [envTimeout, interceptResponse, isRetryableError]

/-- Claim C1 (amended): every HTTP call that fails without any response (a
network failure or the 30-second timeout) yields a ProductBoardError with
code NETWORK_ERROR and statusCode 0; that error is not retryable, so
`request` propagates it to the caller on the first occurrence — one attempt,
no backoff delay — for every retryCount, including retryCount < 3. -/
theorem c1_network_error_not_retryable {T : Type} (env : Nat → HttpOutcome T)
    (rc : Nat) (msg : Option String) (h : env rc = .noResponse msg) :
    isRetryableError ⟨.base, msg.getD "Network error", "NETWORK_ERROR", 0, 60⟩ = false ∧
    request env rc =
      ⟨.error ⟨.base, msg.getD "Network error", "NETWORK_ERROR", 0, 60⟩, 1, []⟩ := by
  constructor
  · simp [isRetryableError]
  · rw [request, h]
    simp [interceptResponse, isRetryableError]

/-- Witness for `c1_network_error_not_retryable` at a concrete environment. -/
theorem c1_witness :
    (envTimeout 2 = .noResponse (some "timeout of 30000ms exceeded")) ∧
    isRetryableError ⟨.base, "timeout of 30000ms exceeded", "NETWORK_ERROR", 0, 60⟩ = false ∧
    request envTimeout 2 =
      ⟨.error ⟨.base, "timeout of 30000ms exceeded", "NETWORK_ERROR", 0, 60⟩, 1, []⟩ :=
  ⟨rfl, c1_network_error_not_retryable envTimeout 2 (some "timeout of 30000ms exceeded") rfl⟩

/-- Claim C2: when an attempt fails with a retryable error and
retryCount < 3, `request` sleeps the classified delay (retryAfter × 1000 ms
for rate-limit errors, otherwise min(1000·2^attempt, 30000) ms) and retries
with retryCount + 1; an always-500 environment yields exactly 4 attempts and
a server-kind error; a 404 propagates after exactly one attempt with no
delay. -/
theorem c2_retry_policy :
    (∀ {T : Type} (env : Nat → HttpOutcome T) (rc : Nat) (e : ProductBoardError),
      interceptResponse (env rc) = .error e → isRetryableError e = true →
      rc < MAX_RETRIES →
      request env rc =
        ⟨(request env (rc + 1)).result, (request env (rc + 1)).attempts + 1,
          (if e.kind = .rateLimit then e.retryAfter * 1000
           else min (1000 * 2 ^ rc) 30000) :: (request env (rc + 1)).delays⟩) ∧
    (request envAll500 0 = ⟨.error (serverError "boom"), 4, [1000, 2000, 4000]⟩ ∧
      (serverError "boom").kind = .server) ∧
    request env404 0 = ⟨.error ⟨.base, "Feature not found", "NOT_FOUND", 404, 60⟩, 1, []⟩ := by
  refine ⟨fun env rc e h hr hlt => ?_, ⟨?_, rfl⟩, ?_⟩
  · rw [request, h]
    simp [hr, hlt, getRetryDelay]
  · rw [request, request, request, request]
    simp [envAll500, interceptResponse, parseApiError, isRetryableError, serverError,
      getRetryDelay, MAX_RETRIES]
  · rw [request]
    simp [env404, interceptResponse, parseApiError, isRetryableError,
      validationError, authenticationError, authorizationError]

/-- Witness for `c2_retry_policy`: its retry equation applied to a concrete
429 response with Retry-After 5, giving a 5000 ms delay. -/
theorem c2_witness :
    request env429 0 =
      ⟨(request env429 1).result, (request env429 1).attempts + 1,
        5000 :: (request env429 1).delays⟩ := by
  have h := c2_retry_policy.1 env429 0 (rateLimitError 5) rfl rfl (by decide)
  simpa [rateLimitError] using h

/-- A completed `paginate` run with a positive `maxItems` returns at most
`maxItems` items, whatever the environment, starting state and fuel. -/
theorem paginateGo_length_le {T : Type} (env : Option String → PageResponse T)
    (m : Nat) (hm : 0 < m) :
    ∀ (fuel : Nat) (acc : List T) (cursor : Option String) (reqs : Nat)
      (res : List T) (n : Nat),
      paginateGo env (some m) fuel acc cursor reqs = some (res, n) →
      res.length ≤ m := by
  intro fuel
  induction fuel with
  | zero => intro acc cursor reqs res n h; simp [paginateGo] at h
  | succ fuel ih =>
    intro acc cursor reqs res n h
    simp only [paginateGo] at h
    by_cases hc : maxItemsTruthy (some m) = true ∧ (acc ++ (env cursor).data).length ≥ (some m).getD 0
    · rw [if_pos ?_] at h
      · simp only [Option.some.injEq, Prod.mk.injEq] at h
        rw [← h.1]
        simp only [Option.getD_some] at hc ⊢
        simp [List.length_take]
      · exact ⟨hc.1, hc.2⟩
    · rw [if_neg ?_] at h
      · rcases hx : extractCursor (env cursor).next with _ | c
        · rw [hx] at h
          simp only [Option.some.injEq, Prod.mk.injEq] at h
          have hlen : (acc ++ (env cursor).data).length < m := by
            simp only [maxItemsTruthy, Option.getD_some, ge_iff_le] at hc
            push_neg at hc
            have := hc (by simpa using hm.ne')
            omega
          rw [← h.1]; omega
        · rw [hx] at h
          exact ih _ _ _ _ _ h
      · intro hand
        exact hc ⟨hand.1, hand.2⟩

/-- On environments in which every page is nonempty, `paginate` with a
positive `maxItems = m` finishes within `m` iterations and issues at most
`m` requests. -/
theorem paginateGo_terminates {T : Type} (env : Option String → PageResponse T)
    (m : Nat) (hne : ∀ c, 1 ≤ (env c).data.length) (hm : 0 < m) :
    ∀ (fuel : Nat) (acc : List T) (cursor : Option String) (reqs : Nat),
      acc.length < m → m ≤ fuel + acc.length →
      ∃ res n, paginateGo env (some m) fuel acc cursor reqs = some (res, n) ∧
        n ≤ reqs + (m - acc.length) := by
  intro fuel
  induction fuel with
  | zero => intro acc cursor reqs h1 h2; omega
  | succ fuel ih =>
    intro acc cursor reqs h1 h2
    simp only [paginateGo]
    have hdata := hne cursor
    by_cases hfull : (acc ++ (env cursor).data).length ≥ m
    · rw [if_pos ?_]
      · exact ⟨_, _, rfl, by omega⟩
      · refine ⟨?_, by simpa using hfull⟩
        simp [maxItemsTruthy]; omega
    · rw [if_neg ?_]
      · rcases hx : extractCursor (env cursor).next with _ | c
        · exact ⟨_, _, rfl, by omega⟩
        · have hlen : (acc ++ (env cursor).data).length < m := by omega
          have hlen2 : (acc ++ (env cursor).data).length ≥ acc.length + 1 := by
            simp; omega
          obtain ⟨res, n, hres, hn⟩ :=
            ih (acc ++ (env cursor).data) (some c) (reqs + 1) hlen (by simp; omega)
          refine ⟨res, n, hres, ?_⟩
          have hd : (acc ++ (env cursor).data).length =
              acc.length + (env cursor).data.length := by simp
          omega
      · simp only [maxItemsTruthy, Option.getD_some, ge_iff_le, not_and]
        intro _
        omega

/-- On the endpoint that always answers an empty page with a next cursor,
the pagination loop never finishes, whatever the fuel. -/
theorem pagesLoop_go_none :
    ∀ (fuel : Nat) (cursor : Option String) (reqs : Nat),
      paginateGo pagesLoop (some 1) fuel [] cursor reqs = none := by
  intro fuel
  induction fuel with
  | zero => intro cursor reqs; rfl
  | succ fuel ih =>
    intro cursor reqs
    simp only [paginateGo, pagesLoop, maxItemsTruthy, extractCursor]
    simpa using ih (some "c") (reqs + 1)

/-- Claim C3: `paginate` accumulates page items in original order,
requesting the next page only while a next cursor exists; pages of 2 items
over 3 pages give all 6 items in order with 3 requests when `maxItems` is
absent, and exactly 3 items with only 2 requests when `maxItems = 3`; in
general a completed run with positive `maxItems` returns at most `maxItems`
items. -/
theorem c3_paginate_accumulation :
    paginate pages3 none 10 = some ([1, 2, 3, 4, 5, 6], 3) ∧
    paginate pages3 (some 3) 10 = some ([1, 2, 3], 2) ∧
    (∀ {T : Type} (env : Option String → PageResponse T) (m fuel : Nat)
      (res : List T) (n : Nat),
      0 < m → paginate env (some m) fuel = some (res, n) → res.length ≤ m) :=
  ⟨by decide, by decide,
    fun env m fuel res n hm h => paginateGo_length_le env m hm fuel [] none 0 res n h⟩

/-- Witness for `c3_paginate_accumulation` at the three-page endpoint. -/
theorem c3_witness : ([1, 2, 3] : List Nat).length ≤ 3 :=
  c3_paginate_accumulation.2.2 pages3 3 10 [1, 2, 3] 2 (by decide) (by decide)

/-- Claim C4 (counterexample): with `maxItems = 1` and an endpoint whose
every response carries a next cursor (but no items), `paginate` never
terminates — no amount of fuel completes the loop — so its work is not
bounded by a function of `maxItems`. -/
theorem c4_counterexample :
    ¬ ∃ fuel res, paginate pagesLoop (some 1) fuel = some res := by
  rintro ⟨fuel, res, h⟩
  rw [paginate, pagesLoop_go_none] at h
  exact Option.noConfusion h

/-- Claim C4 (amended): for every positive `maxItems` and every response
sequence in which each response carries a next cursor and at least one item,
`paginate` terminates after at most `maxItems` requests. -/
theorem c4_bounded_when_pages_nonempty {T : Type}
    (env : Option String → PageResponse T) (m fuel : Nat)
    (hne : ∀ c, 1 ≤ (env c).data.length) (hm : 0 < m) (hfuel : m ≤ fuel) :
    ∃ res n, paginate env (some m) fuel = some (res, n) ∧ n ≤ m := by
  obtain ⟨res, n, h, hn⟩ :=
    paginateGo_terminates env m hne hm fuel [] none 0 (by simpa) (by simpa)
  exact ⟨res, n, h, by simpa using hn⟩

/-- Witness for `c4_bounded_when_pages_nonempty` at a concrete endpoint. -/
theorem c4_witness :
    ∃ res n, paginate pagesOnes (some 2) 2 = some (res, n) ∧ n ≤ 2 :=
  c4_bounded_when_pages_nonempty pagesOnes 2 2 (fun _ => Nat.le_refl 1) (by decide) (by decide)

/-- `refill` preserves the token invariant (for a nonnegative refill rate);
note no clock monotonicity is needed. -/
theorem refill_inv (o : RateLimiterOptions) (s : RateLimiterState) (now : Int)
    (hr : 0 ≤ o.refillRate) (h : RLInv o s) : RLInv o (refill o s now) := by
  obtain ⟨h0, h1⟩ := h
  unfold refill
  by_cases hi : Int.fdiv (now - s.lastRefill) o.refillInterval > 0
  · rw [if_pos hi]
    constructor
    · have : 0 ≤ Int.fdiv (now - s.lastRefill) o.refillInterval * o.refillRate :=
        mul_nonneg (le_of_lt hi) hr
      simp only
      rw [le_min_iff]
      exact ⟨by omega, by omega⟩
    · exact min_le_left _ _
  · rw [if_neg hi]; exact ⟨h0, h1⟩

/-- `tryAcquire` preserves the token invariant. -/
theorem tryAcquire_inv (o : RateLimiterOptions) (s : RateLimiterState) (now : Int)
    (hr : 0 ≤ o.refillRate) (h : RLInv o s) : RLInv o (tryAcquire o s now).2 := by
  have h' := refill_inv o s now hr h
  unfold tryAcquire
  by_cases ht : (refill o s now).tokens > 0
  · rw [if_pos ht]
    have h2 := h'.2
    constructor
    · show (0 : Int) ≤ (refill o s now).tokens - 1
      omega
    · show (refill o s now).tokens - 1 ≤ o.maxTokens
      omega
  · rw [if_neg ht]; exact h'

/-- `acquire`'s loop preserves the token invariant. -/
theorem acquireSteps_inv (o : RateLimiterOptions) (hr : 0 ≤ o.refillRate) :
    ∀ (times : List Int) (s : RateLimiterState), RLInv o s →
      RLInv o (acquireSteps o s times) := by
  intro times
  induction times with
  | nil => intro s h; exact h
  | cons t ts ih =>
    intro s h
    simp only [acquireSteps]
    rcases hx : tryAcquire o s t with ⟨ok, s'⟩
    have hs' : RLInv o s' := by
      have := tryAcquire_inv o s t hr h
      rw [hx] at this
      exact this
    cases ok
    · exact ih _ (refill_inv o s' t hr hs')
    · exact hs'

/-- Claim C5: for every rate-limiter configuration (nonnegative rate and
capacity) and every sequence of public operations at arbitrary instants,
the state satisfies `0 ≤ tokens ≤ maxTokens`; in particular one hour of
idleness on the default configuration refills to exactly the 100-token cap,
not an unbounded count. -/
theorem c5_tokens_invariant :
    (∀ (o : RateLimiterOptions), 0 ≤ o.refillRate → 0 ≤ o.maxTokens →
      ∀ (t0 : Int) (ops : List RLOp),
        RLInv o (ops.foldl (applyRLOp o) (initRLState o t0))) ∧
    refill defaultRLOptions ⟨0, 0⟩ 3600000 = ⟨100, 3600000⟩ := by
  constructor
  · intro o hr hm t0 ops
    have hstep : ∀ (s : RateLimiterState) (op : RLOp), RLInv o s →
        RLInv o (applyRLOp o s op) := by
      intro s op h
      cases op with
      | tryAcq now => exact tryAcquire_inv o s now hr h
      | acq times => exact acquireSteps_inv o hr times s h
      | waitTime now => exact refill_inv o s now hr h
      | tokensOp now => exact refill_inv o s now hr h
      | limited now => exact refill_inv o s now hr h
      | resetOp now => exact ⟨hm, le_refl _⟩
    have hinit : RLInv o (initRLState o t0) := ⟨hm, le_refl _⟩
    have hfold : ∀ (ops : List RLOp) (s : RateLimiterState), RLInv o s →
        RLInv o (ops.foldl (applyRLOp o) s) := by
      intro ops
      induction ops with
      | nil => intro s h; exact h
      | cons op ops ih =>
        intro s h
        rw [List.foldl_cons]
        exact ih _ (hstep s op h)
    exact hfold ops _ hinit
  · decide

/-- Claim C6: on every access `refill` adds `floor(elapsed / refillInterval)
× refillRate` tokens capped at `maxTokens` and advances `lastRefill` by
exactly the consumed whole intervals (the remainder inside the current
interval is preserved); `tryAcquire` then decrements and returns true iff
the refilled token count is positive; with maxTokens=1, refillRate=1,
refillInterval=1000 ms the first `tryAcquire` succeeds, an immediate second
fails, and any `tryAcquire` at least 1000 ms later succeeds again. -/
theorem c6_lazy_refill :
    (∀ (o : RateLimiterOptions) (s : RateLimiterState) (now : Int),
      0 < o.refillInterval → s.lastRefill ≤ now → s.tokens ≤ o.maxTokens →
      refill o s now =
        ⟨min o.maxTokens
            (s.tokens + Int.fdiv (now - s.lastRefill) o.refillInterval * o.refillRate),
          s.lastRefill +
            Int.fdiv (now - s.lastRefill) o.refillInterval * o.refillInterval⟩) ∧
    (∀ (o : RateLimiterOptions) (s : RateLimiterState) (now : Int),
      ((tryAcquire o s now).1 = true ↔ 0 < (refill o s now).tokens) ∧
      (tryAcquire o s now).2.tokens =
        (if 0 < (refill o s now).tokens then (refill o s now).tokens - 1
         else (refill o s now).tokens)) ∧
    tryAcquire ⟨1, 1, 1000⟩ (initRLState ⟨1, 1, 1000⟩ 0) 0 = (true, ⟨0, 0⟩) ∧
    tryAcquire ⟨1, 1, 1000⟩ ⟨0, 0⟩ 0 = (false, ⟨0, 0⟩) ∧
    (∀ t : Int, 1000 ≤ t → (tryAcquire ⟨1, 1, 1000⟩ ⟨0, 0⟩ t).1 = true) := by
  refine ⟨?_, ?_, by decide, by decide, ?_⟩
  · intro o s now hI hle htok
    obtain ⟨tok, last⟩ := s
    simp only at hle htok
    unfold refill
    simp only
    have hfd : Int.fdiv (now - last) o.refillInterval = (now - last) / o.refillInterval :=
      Int.fdiv_eq_ediv _ hI.le
    by_cases hi : Int.fdiv (now - last) o.refillInterval > 0
    · rw [if_pos hi]
      simp only [RateLimiterState.mk.injEq, true_and]
      have hmod := Int.ediv_add_emod (now - last) o.refillInterval
      have hcomm : (now - last) / o.refillInterval * o.refillInterval =
          o.refillInterval * ((now - last) / o.refillInterval) := mul_comm _ _
      rw [hfd]
      have : Int.emod (now - last) o.refillInterval = (now - last) % o.refillInterval := rfl
      rw [this]
      linarith
    · rw [if_neg hi]
      have h0 : 0 ≤ Int.fdiv (now - last) o.refillInterval := by
        rw [hfd]; exact Int.ediv_nonneg (by omega) hI.le
      have hz : Int.fdiv (now - last) o.refillInterval = 0 := by omega
      rw [hz]
      simp [min_eq_right htok]
  · intro o s now
    unfold tryAcquire
    by_cases ht : (refill o s now).tokens > 0
    · rw [if_pos ht]
      simp [ht]
    · rw [if_neg ht]
      simp [ht]
  · intro t ht
    have hfd : Int.fdiv (t - 0) (1000 : Int) = (t - 0) / 1000 :=
      Int.fdiv_eq_ediv _ (by norm_num)
    have h1 : (0 : Int) < (t - 0) / 1000 := by omega
    have href : refill ⟨1, 1, 1000⟩ ⟨0, 0⟩ t = ⟨1, t - Int.emod (t - 0) 1000⟩ := by
      unfold refill
      simp only
      rw [if_pos (by rw [hfd]; exact h1)]
      simp only [RateLimiterState.mk.injEq]
      refine ⟨by rw [hfd]; omega, trivial⟩
    unfold tryAcquire
    rw [href]
    norm_num

/-- Witness for `c5_tokens_invariant` on the default configuration and a
concrete operation sequence (an acquisition, then a read one hour later). -/
theorem c5_witness :
    RLInv defaultRLOptions
      ([RLOp.tryAcq 0, RLOp.tokensOp 3600000].foldl (applyRLOp defaultRLOptions)
        (initRLState defaultRLOptions 0)) :=
  c5_tokens_invariant.1 defaultRLOptions (by decide) (by decide) 0
    [RLOp.tryAcq 0, RLOp.tokensOp 3600000]

/-- Witness for `c6_lazy_refill` at concrete states and instants. -/
theorem c6_witness :
    refill defaultRLOptions ⟨40, 0⟩ 90000 =
      ⟨min 100 (40 + Int.fdiv (90000 - 0) 60000 * 100),
        0 + Int.fdiv (90000 - 0) 60000 * 60000⟩ ∧
    (tryAcquire ⟨1, 1, 1000⟩ ⟨0, 0⟩ 1500).1 = true :=
  ⟨c6_lazy_refill.1 defaultRLOptions ⟨40, 0⟩ 90000 (by decide) (by decide) (by decide),
    c6_lazy_refill.2.2.2.2 1500 (by decide)⟩

/-- A binding built for key `k` carries `k` itself. -/
theorem keyBinding_key (params : List (String × Option JVal)) (k : String)
    (b : String × JVal) (h : keyBinding params k = some b) : b.1 = k := by
  unfold keyBinding at h
  rcases hx : lookupParam params k with _ | v
  · rw [hx] at h; exact absurd h (by simp)
  · rcases v with _ | v
    · rw [hx] at h; exact absurd h (by simp)
    · rw [hx] at h
      simp at h
      rw [← h]

/-- The reduce in `generateKey` is a `filterMap` of the sorted key list. -/
theorem sortedEntries_foldl (params : List (String × Option JVal)) :
    ∀ (keys : List String) (init : List (String × JVal)),
      keys.foldl (fun acc k =>
        match lookupParam params k with
        | some (some v) => acc ++ [(k, v)]
        | _ => acc) init
      = init ++ keys.filterMap (keyBinding params) := by
  intro keys
  induction keys with
  | nil => intro init; simp
  | cons k keys ih =>
    intro init
    rw [List.foldl_cons, List.filterMap_cons]
    rcases hx : lookupParam params k with _ | v
    · simp only [keyBinding, hx]
      exact ih init
    · rcases v with _ | v
      · simp only [keyBinding, hx]
        exact ih init
      · simp only [keyBinding, hx]
        rw [ih (init ++ [(k, v)])]
        simp

/-- With duplicate-free keys, projecting every key of the bag through its
lookup recovers exactly the non-null bindings in bag order. -/
theorem filterMap_keyBinding_eq_keepSome :
    ∀ (params : List (String × Option JVal)), (params.map Prod.fst).Nodup →
      (params.map Prod.fst).filterMap (keyBinding params) = keepSome params := by
  intro params
  induction params with
  | nil => intro _; rfl
  | cons p t ih =>
    intro hnd
    rcases p with ⟨k, v⟩
    simp only [List.map_cons, List.nodup_cons] at hnd
    rw [List.map_cons, List.filterMap_cons]
    have hhead : keyBinding ((k, v) :: t) k = v.map (fun w => (k, w)) := by
      unfold keyBinding lookupParam
      rw [List.find?_cons]
      simp only [beq_self_eq_true]
      rcases v with _ | w <;> simp
    have htail : (t.map Prod.fst).filterMap (keyBinding ((k, v) :: t)) =
        (t.map Prod.fst).filterMap (keyBinding t) := by
      apply List.filterMap_congr
      intro k' hk'
      have hne : ¬ (k == k') = true := by
        simp only [beq_iff_eq]
        intro hcontra
        exact hnd.1 (hcontra ▸ hk')
      unfold keyBinding lookupParam
      rw [List.find?_cons]
      simp only [hne]
    rw [hhead, htail, ih hnd.2]
    rcases v with _ | w <;> simp [keepSome]

/-- The sorted, null-stripped entry list is a permutation of the bag's
non-null bindings. -/
theorem sortedEntries_perm (params : List (String × Option JVal))
    (h : (params.map Prod.fst).Nodup) :
    (sortedEntries params).Perm (keepSome params) := by
  unfold sortedEntries
  rw [sortedEntries_foldl params]
  simp only [List.nil_append]
  calc (((params.map Prod.fst).insertionSort (· ≤ ·)).filterMap (keyBinding params)).Perm
        ((params.map Prod.fst).filterMap (keyBinding params)) :=
        (List.perm_insertionSort _ _).filterMap _
    _ = keepSome params := filterMap_keyBinding_eq_keepSome params h

/-- The sorted, null-stripped entry list is strictly sorted by key. -/
theorem sortedEntries_pairwise (params : List (String × Option JVal))
    (h : (params.map Prod.fst).Nodup) :
    List.Pairwise keyLt (sortedEntries params) := by
  unfold sortedEntries
  rw [sortedEntries_foldl params]
  simp only [List.nil_append]
  have hsorted : List.Sorted (· ≤ ·) ((params.map Prod.fst).insertionSort (· ≤ ·)) :=
    List.sorted_insertionSort _ _
  have hnd : ((params.map Prod.fst).insertionSort (· ≤ ·)).Nodup :=
    (List.perm_insertionSort _ _).nodup_iff.mpr h
  have hlt : List.Pairwise (· < ·) ((params.map Prod.fst).insertionSort (· ≤ ·)) :=
    (hsorted.and hnd).imp (fun hx => lt_of_le_of_ne hx.1 hx.2)
  refine List.Pairwise.filterMap (keyBinding params) ?_ hlt
  intro a a' hlt' b hb b' hb'
  unfold keyLt
  rw [keyBinding_key params a b hb, keyBinding_key params a' b' hb']
  exact hlt'

/-- Claim C7: `generateKey` is a function of the tool name and the set of
non-null bindings — two parameter bags with duplicate-free keys, equal
non-null bindings in any order and any extra undefined/null entries give
identical keys; in particular the two specified concrete examples. -/
theorem c7_generateKey_deterministic :
    (∀ (tool : String) (p₁ p₂ : List (String × Option JVal)),
      (p₁.map Prod.fst).Nodup → (p₂.map Prod.fst).Nodup →
      (keepSome p₁).Perm (keepSome p₂) →
      generateKey tool p₁ = generateKey tool p₂) ∧
    generateKey "x" [("b", some (.jnum 1)), ("a", some (.jnum 2))] =
      generateKey "x" [("a", some (.jnum 2)), ("b", some (.jnum 1))] ∧
    generateKey "x" [("a", some (.jnum 2)), ("c", none)] =
      generateKey "x" [("a", some (.jnum 2))] := by
  have hmain : ∀ (tool : String) (p₁ p₂ : List (String × Option JVal)),
      (p₁.map Prod.fst).Nodup → (p₂.map Prod.fst).Nodup →
      (keepSome p₁).Perm (keepSome p₂) →
      generateKey tool p₁ = generateKey tool p₂ := by
    intro tool p₁ p₂ h1 h2 hperm
    have e1 : sortedEntries p₁ = sortedEntries p₂ := by
      have hp : (sortedEntries p₁).Perm (sortedEntries p₂) :=
        (sortedEntries_perm p₁ h1).trans (hperm.trans (sortedEntries_perm p₂ h2).symm)
      exact List.eq_of_perm_of_sorted hp (sortedEntries_pairwise p₁ h1)
        (sortedEntries_pairwise p₂ h2)
    unfold generateKey
    rw [e1]
  exact ⟨hmain, hmain "x" _ _ (by decide) (by decide) (by decide),
    hmain "x" _ _ (by decide) (by decide) (by decide)⟩

/-- Witness for `c7_generateKey_deterministic` on concrete bags differing
in key order and an extra null entry. -/
theorem c7_witness :
    generateKey "feature_list" [("productId", some (.jstr "p1")), ("limit", some (.jnum 5))] =
      generateKey "feature_list" [("limit", some (.jnum 5)), ("status", none), ("productId", some (.jstr "p1"))] :=
  c7_generateKey_deterministic.1 "feature_list" _ _ (by decide) (by decide) (by decide)

/-- A filtered store has no entry under a key every survivor avoids. -/
theorem find?_key_filter_none (c : CacheStore) (k : String)
    (p : String × Option JVal → Bool) (h : ∀ e, e.1 = k → p e = false) :
    (c.filter p).find? (fun e => e.1 == k) = none := by
  rw [List.find?_eq_none]
  intro x hx
  simp only [beq_iff_eq]
  intro hk
  have hpx := (List.mem_filter.mp hx).2
  rw [h x hk] at hpx
  exact Bool.false_ne_true hpx

/-- Every generated key starts with its tool-name namespace followed by a
colon. -/
theorem keyStartsWith_generateKey (tool : String)
    (params : List (String × Option JVal)) :
    keyStartsWith (generateKey tool params) (tool ++ ":") = true := by
  unfold keyStartsWith generateKey
  rw [List.isPrefixOf_iff_prefix, String.data_append]
  exact List.prefix_append _ _

/-- Claim C8: after `updateFeature(id, ...)`'s cache invalidation, the
`pb_feature_get` entry for that id is gone, every `pb_feature_list:` and
`pb_feature_search:` key is gone, and in particular a `listFeatures` lookup
under any parameter bag misses the cache (no stale snapshot). -/
theorem c8_updateFeature_invalidation (c : CacheStore) (id : String) :
    cacheGet (updateFeatureInvalidation c id)
      (generateKey "pb_feature_get" [("id", some (.jstr id))]) = none ∧
    (∀ k, keyStartsWith k "pb_feature_list:" = true →
      cacheGet (updateFeatureInvalidation c id) k = none) ∧
    (∀ k, keyStartsWith k "pb_feature_search:" = true →
      cacheGet (updateFeatureInvalidation c id) k = none) ∧
    (∀ params, cacheGet (updateFeatureInvalidation c id)
      (generateKey "pb_feature_list" params) = none) := by
  have hmem : ∀ e, e ∈ updateFeatureInvalidation c id →
      (e.1 ≠ generateKey "pb_feature_get" [("id", some (.jstr id))]) ∧
      keyStartsWith e.1 "pb_feature_list:" = false ∧
      keyStartsWith e.1 "pb_feature_search:" = false := by
    intro e he
    unfold updateFeatureInvalidation invalidatePattern cacheDelete at he
    simp only at he
    have h3 := List.mem_filter.mp he
    have h2 := List.mem_filter.mp h3.1
    have h1 := List.mem_filter.mp h2.1
    refine ⟨?_, ?_, ?_⟩
    · have := h1.2
      simp only [Bool.not_eq_true', beq_eq_false_iff_ne, ne_eq] at this
      exact this
    · simpa using h2.2
    · simpa using h3.2
  have habsent : ∀ k, (∀ e, e ∈ updateFeatureInvalidation c id → e.1 ≠ k) →
      cacheGet (updateFeatureInvalidation c id) k = none := by
    intro k hk
    unfold cacheGet
    rw [List.find?_eq_none.mpr]
    · rfl
    · intro x hx
      simp only [beq_iff_eq]
      exact hk x hx
  refine ⟨?_, ?_, ?_, ?_⟩
  · exact habsent _ (fun e he hk => ((hmem e he).1 hk))
  · intro k hks
    refine habsent _ (fun e he hk => ?_)
    have := (hmem e he).2.1
    rw [hk, hks] at this
    exact absurd this (by simp)
  · intro k hks
    refine habsent _ (fun e he hk => ?_)
    have := (hmem e he).2.2
    rw [hk, hks] at this
    exact absurd this (by simp)
  · intro params
    refine habsent _ (fun e he hk => ?_)
    have hpre := keyStartsWith_generateKey "pb_feature_list" params
    have heq : ("pb_feature_list" ++ ":" : String) = "pb_feature_list:" := rfl
    rw [heq] at hpre
    have := (hmem e he).2.1
    rw [hk, hpre] at this
    exact absurd this (by simp)

/-- Witness for `c8_updateFeature_invalidation` on a concrete store holding
a stale feature-list entry. -/
theorem c8_witness :
    cacheGet
      (updateFeatureInvalidation
        [(generateKey "pb_feature_get" [("id", some (.jstr "f1"))], some (.jstr "old")),
         (generateKey "pb_feature_list" [("limit", some (.jnum 500))], some (.jstr "stale")),
         ("pb_product_get:x", some (.jnum 3))] "f1")
      (generateKey "pb_feature_list" [("limit", some (.jnum 500))]) = none :=
  (c8_updateFeature_invalidation _ "f1").2.2.2 [("limit", some (.jnum 500))]

/-- Claim C10: when `wrap`'s compute resolves to undefined, the call returns
undefined, the stored result is invisible to `get`, and every subsequent
`wrap` for that key invokes compute again — an absent entry and a cached
undefined are indistinguishable through `get`/`wrap`. -/
theorem c10_wrap_undefined_not_cached (c : CacheStore) (k : String)
    (h : cacheGet c k = none) :
    (cacheWrap c k none).value = none ∧
    (cacheWrap c k none).computed = true ∧
    cacheGet (cacheWrap c k none).state k = none ∧
    (∀ compute₂, (cacheWrap (cacheWrap c k none).state k compute₂).computed = true) := by
  have hwrap : cacheWrap c k none = ⟨none, cacheSet c k none, true⟩ := by
    unfold cacheWrap
    rw [h]
  have hget : cacheGet (cacheSet c k none) k = none := by
    unfold cacheGet cacheSet
    rw [List.find?_cons]
    simp
  refine ⟨by rw [hwrap], by rw [hwrap], by rw [hwrap]; exact hget, ?_⟩
  intro compute₂
  rw [hwrap]
  unfold cacheWrap
  rw [hget]

/-- Witness for `c10_wrap_undefined_not_cached` on a concrete store. -/
theorem c10_witness :
    (cacheWrap [("a", some (.jnum 1))] "x" none).value = none ∧
    (cacheWrap [("a", some (.jnum 1))] "x" none).computed = true ∧
    cacheGet (cacheWrap [("a", some (.jnum 1))] "x" none).state "x" = none ∧
    (∀ compute₂,
      (cacheWrap (cacheWrap [("a", some (.jnum 1))] "x" none).state "x" compute₂).computed = true) :=
  c10_wrap_undefined_not_cached [("a", some (.jnum 1))] "x" (by decide)

/-- Claim C9 (counterexample): because the match also tests descriptions, a
"Light Mode" feature whose description contains "dark" is returned too —
the query "dark" does not return only the "Dark Mode" feature regardless of
description content. -/
theorem c9_counterexample :
    searchFeaturesOn [darkFeature, lightFeatureDarkDesc] "dark" 50 =
      [darkFeature, lightFeatureDarkDesc] ∧
    [darkFeature, lightFeatureDarkDesc] ≠ [darkFeature] := by
  exact ⟨by decide, by decide⟩

/-- Claim C9 (amended): `searchFeatures` lists at most 500 features and
returns, in list order truncated to `limit`, exactly those whose name or
description contains the query case-insensitively; "Dark Mode" vs "Light
Mode" under query "dark" (any casing) returns only the former provided
neither description contains the query. -/
theorem c9_search_semantics :
    (∀ (env : Option String → PageResponse Feature) (q : String)
      (lim fuel : Nat) (res : List Feature),
      searchFeatures env q lim fuel = some res →
      ∃ items n, paginate env (some 500) fuel = some (items, n) ∧
        items.length ≤ 500 ∧ res = searchFeaturesOn items q lim) ∧
    (∀ (features : List Feature) (q : String) (lim : Nat),
      (searchFeaturesOn features q lim).length ≤ lim ∧
      (searchFeaturesOn features q lim).Sublist features ∧
      (∀ f ∈ searchFeaturesOn features q lim,
        featureMatches (toLowerStr q) f = true) ∧
      (features.length ≤ lim → ∀ f ∈ features,
        featureMatches (toLowerStr q) f = true →
        f ∈ searchFeaturesOn features q lim)) ∧
    searchFeaturesOn [darkFeature, lightFeature] "dark" 50 = [darkFeature] ∧
    searchFeaturesOn [darkFeature, lightFeature] "DaRk" 50 = [darkFeature] := by
  refine ⟨?_, ?_, by decide, by decide⟩
  · intro env q lim fuel res h
    unfold searchFeatures at h
    rcases hp : paginate env (some 500) fuel with _ | r
    · rw [hp] at h; exact absurd h (by simp)
    · obtain ⟨items, n⟩ := r
      rw [hp] at h
      simp only [Option.map_some', Option.some.injEq] at h
      refine ⟨items, n, rfl, ?_, h.symm⟩
      exact paginateGo_length_le env 500 (by norm_num) fuel [] none 0 items n hp
  · intro features q lim
    refine ⟨?_, ?_, ?_, ?_⟩
    · show ((features.filter (featureMatches (toLowerStr q))).take lim).length ≤ lim
      simp only [List.length_take]
      exact min_le_left _ _
    · exact (List.take_sublist _ _).trans (List.filter_sublist _)
    · intro f hf
      unfold searchFeaturesOn at hf
      have := List.mem_of_mem_take hf
      exact List.of_mem_filter this
    · intro hlen f hf hmatch
      unfold searchFeaturesOn
      have hfl : (features.filter (featureMatches (toLowerStr q))).length ≤ lim :=
        le_trans (List.length_filter_le _ _) hlen
      rw [List.take_of_length_le hfl]
      exact List.mem_filter.mpr ⟨hf, hmatch⟩

/-- Witness for `c9_search_semantics` on a concrete one-page endpoint. -/
theorem c9_witness :
    ∃ items n, paginate envFeatDemo (some 500) 1 = some (items, n) ∧
      items.length ≤ 500 ∧ [darkFeature] = searchFeaturesOn items "dark" 50 :=
  c9_search_semantics.1 envFeatDemo "dark" 50 1 [darkFeature] (by decide)
